import Mathlib

/-!
Shallow embedding of the TrafficModels repository.

`TrafficModels.algorithm` embeds `src/algorithm.py` (class
`DynamicTrafficController`): Python floats are modelled as rationals,
Python ints as `Int` (`wait` as `Nat`: it is only ever reset to 0 or
incremented), the per-lane dict as a total function from lane ids
together with the registration-order list `lane_ids`, and the one-hot
`state` lists `[1,0,0] / [0,1,0] / [0,0,1]` as the inductive `Phase`
(`Red / Yellow / Green`).  `time.time()` is passed in as the explicit
argument `now`, and `random.randint(0, 3)` as the injected function
`arrivals` (the source draws it from a PRNG).  Code that can raise is
modelled with `Option`: `update` returns `none` exactly where the
source raises (`max()` over an empty score dict, and the `KeyError`s
raised when the readings' lane-id set differs from the registered set).

`TrafficModels.model_api` embeds `aggregate_counts` of
`src/model_api.py`; the classifier calls that may raise are injected
as `Option`-valued functions (`none` = the `except` path taken).
-/

namespace TrafficModels

/-- Signal phase of one lane; the source encodes it as a one-hot list:
red = `[1,0,0]`, yellow = `[0,1,0]`, green = `[0,0,1]`. -/
inductive Phase where
  | Red : Phase
  | Yellow : Phase
  | Green : Phase
deriving DecidableEq, Repr

/-- One entry of `self.lanes`: `{"normal": .., "emergency": .., "wait": .., "state": ..}`. -/
structure LaneRec where
  normal : Int
  emergency : Int
  wait : Nat
  state : Phase
deriving DecidableEq, Repr

/-- The controller's configuration constants (`__init__` parameters; the
`debug` flag only controls printing and is omitted). -/
structure Config where
  yellow_time : ℚ
  min_green : ℚ
  max_green : ℚ
  wait_boost : ℚ
  starvation_limit : Nat
  clearance_rate : ℚ
deriving DecidableEq, Repr

/-- One element of the `lanes_data` list passed to `update`. -/
structure Reading where
  lane_id : String
  normal : Int
  emergency : Int
deriving DecidableEq, Repr

/-- One entry of the transient working snapshot `data` built at the top of
`update`: authoritative `normal`/`emergency` from the readings plus the
stored `wait`. -/
structure LaneData where
  normal : Int
  emergency : Int
  wait : Nat
deriving DecidableEq, Repr

/-- One entry of the report returned by `update`: the per-lane output dict
`{"state": .., "wait": ..}`, with `green_time` present only on the lane
stored in `self.current_green`. -/
structure ReportEntry where
  lane_id : String
  state : Phase
  wait : Nat
  green_time : Option ℚ
deriving DecidableEq, Repr

/-- The mutable state of a `DynamicTrafficController` instance. -/
structure Ctrl where
  cfg : Config
  lane_ids : List String
  lanes : String → LaneRec
  current_green : Option String
  green_started_at : Option ℚ
  current_green_time : ℚ
  last_emergency_lane : Option String

/-- Default configuration values of `DynamicTrafficController.__init__`. -/
def defaultConfig : Config :=
  { yellow_time := 2, min_green := 3, max_green := 15, wait_boost := 0.4,
    starvation_limit := 8, clearance_rate := 3 }

/-- Configuration used by `algo_api.py` when it instantiates the controller
(`min_green=3.0, max_green=12.0, yellow_time=2.0, clearance_rate=2.5`,
remaining parameters left at their defaults). -/
def apiConfig : Config :=
  { yellow_time := 2, min_green := 3, max_green := 12, wait_boost := 0.4,
    starvation_limit := 8, clearance_rate := 2.5 }

/-- A freshly built controller over the given lane-id list: every lane
`{"normal": 0, "emergency": 0, "wait": 0, "state": [1,0,0]}`, no current
green lane, `current_green_time = min_green`, no emergency memory.  This is
`__init__` (which names the lanes `Lane_1 .. Lane_N`) composed with the
lane-id override performed by `algo_api.update_signal` on re-registration. -/
def mkController (ids : List String) (cfg : Config) : Ctrl :=
  { cfg := cfg, lane_ids := ids,
    lanes := fun _ => { normal := 0, emergency := 0, wait := 0, state := Phase.Red },
    current_green := none, green_started_at := none,
    current_green_time := cfg.min_green, last_emergency_lane := none }

/-- The lane-id list `["Lane_1", ..., "Lane_N"]` built by `__init__`. -/
def defaultLaneIds (n : Nat) : List String :=
  (List.range n).map (fun i => "Lane_" ++ toString (i + 1))

/-- Python truthiness of an optional string: `None` and `""` are falsy.
The source tests lane-id variables with `if not chosen:` and
`if self.current_green and ...`. -/
def truthyS : Option String → Bool
  | none => false
  | some s => s ≠ ""

/-- Python truthiness of an optional float: `None` and `0.0` are falsy.
The source tests `self.green_started_at` this way. -/
def truthyQ : Option ℚ → Bool
  | none => false
  | some q => q ≠ 0

/-- Value a lane id receives in the dict comprehension
`{d["lane_id"]: ... for d in lanes_data}`: the pair from the last list
element with that id, `none` if the id does not occur. -/
def lookupReading (readings : List Reading) (l : String) : Option (Int × Int) :=
  readings.foldl (fun acc r => if r.lane_id = l then some (r.normal, r.emergency) else acc) none

/-- The working snapshot `data` built at the top of `update`: `normal` and
`emergency` from the readings, `wait` from the stored lane state.  For a
lane id missing from the readings the source would raise `KeyError`
(`update` guards against that case and returns `none` there); the `(0, 0)`
default below is never reached on the guarded path. -/
def dataOf (st : Ctrl) (readings : List Reading) : String → LaneData :=
  fun l =>
    match lookupReading readings l with
    | some (n, e) => { normal := n, emergency := e, wait := (st.lanes l).wait }
    | none => { normal := 0, emergency := 0, wait := (st.lanes l).wait }

/-- Fairness score computed in `_choose_normal_lane`:
`score = n * (1 + w * wait_boost)`, plus `1000` when
`w >= starvation_limit`. -/
def laneScore (cfg : Config) (d : LaneData) : ℚ :=
  d.normal * (1 + (d.wait : ℚ) * cfg.wait_boost)
    + (if cfg.starvation_limit ≤ d.wait then 1000 else 0)

/-- Python's `max(xs, key=score)` on a nonempty sequence `b :: xs`: keep the
current best, replacing it only when a later element's key is strictly
greater, so the first element achieving the maximum wins. -/
def bestLane (score : String → ℚ) (b : String) (xs : List String) : String :=
  xs.foldl (fun best l => if score best < score l then l else best) b

/-- `_choose_normal_lane`: `max(scores, key=scores.get)` over the score dict,
whose insertion order is `self.lane_ids`.  `max` over an empty sequence
raises `ValueError`, modelled as `none`. -/
def chooseNormalLane (cfg : Config) (ids : List String) (data : String → LaneData) :
    Option String :=
  match ids with
  | [] => none
  | x :: xs => some (bestLane (fun l => laneScore cfg (data l)) x xs)

/-- `_calculate_green_time`: clearance time plus wait and emergency bonuses,
clamped to `[min_green, max_green]`.  The wait bonus uses the literal
constant `0.4`, not the configurable `wait_boost`. -/
def calcGreenTime (cfg : Config) (d : LaneData) : ℚ :=
  let clear_time := (d.normal : ℚ) / cfg.clearance_rate
  let wait_bonus := (d.wait : ℚ) * 0.4
  let emergency_bonus := (d.emergency : ℚ) * 2.0
  let base_time := clear_time + wait_bonus + emergency_bonus
  max cfg.min_green (min base_time cfg.max_green)

/-- Start position of the round-robin tie-break scan in
`_choose_emergency_lane`: one past the remembered last emergency lane when
that lane is registered, else position 0. -/
def scanStart (st : Ctrl) : Nat :=
  match st.last_emergency_lane with
  | some le =>
      if le ∈ st.lane_ids then (st.lane_ids.indexOf le + 1) % st.lane_ids.length else 0
  | none => 0

/-- The sequence of lanes visited by the loop
`for i in range(len(self.lane_ids)): lane = self.lane_ids[(start + i) % len(...)]`. -/
def scanList (ids : List String) (start : Nat) : List String :=
  (List.range ids.length).map (fun i => ids.getD ((start + i) % ids.length) "")

/-- `max_count` in `_choose_emergency_lane`: the maximal emergency count
over the nonempty list `e :: es` of emergency-bearing lanes. -/
def maxEmergency (data : String → LaneData) (e : String) (es : List String) : Int :=
  (es.map (fun l => (data l).emergency)).foldl max ((data e).emergency)

/-- `tied` in `_choose_emergency_lane`: the emergency-bearing lanes whose
emergency count equals the maximum. -/
def tiedLanes (data : String → LaneData) (e : String) (es : List String) : List String :=
  (e :: es).filter (fun l => (data l).emergency = maxEmergency data e es)

/-- The choice made by `_choose_emergency_lane` once the emergency list is
known to be nonempty: the unique tied lane when there is exactly one,
otherwise the first tied lane in the circular scan, with `tied[0]` as the
loop's `else` fallback (`headD ""` is only ever evaluated on a nonempty
`tied`). -/
def emergencyPick (st : Ctrl) (data : String → LaneData) (e : String) (es : List String) :
    Option String :=
  if (tiedLanes data e es).length = 1 then some ((tiedLanes data e es).headD "")
  else
    match (scanList st.lane_ids (scanStart st)).find?
        (fun l => decide (l ∈ tiedLanes data e es)) with
    | some c => some c
    | none => some ((tiedLanes data e es).headD "")

/-- `_choose_emergency_lane`: `None` when no lane has `emergency > 0`, else
`emergencyPick`.  The filter below runs over `lane_ids` where the source
iterates the keys of `data`; on any run that does not raise, those key sets
are equal, and no consumer of the resulting lists depends on their order. -/
def chooseEmergencyLane (st : Ctrl) (data : String → LaneData) : Option String :=
  match st.lane_ids.filter (fun l => 0 < (data l).emergency) with
  | [] => none
  | e :: es => emergencyPick st data e es

/-- `_update_waits`: loop over `lane_ids` setting the chosen lane's wait to 0
and incrementing every other lane's wait. -/
def updateWaits (ids : List String) (chosen : String) (lanes : String → LaneRec) :
    String → LaneRec :=
  ids.foldl (fun acc l =>
    Function.update acc l
      (if l = chosen then { acc l with wait := 0 } else { acc l with wait := (acc l).wait + 1 }))
    lanes

/-- The lane-state rewrite performed by `_apply_yellow`: set every
registered lane red and the chosen lane yellow, then immediately overwrite
the chosen lane to green. -/
def yellowLanes (ids : List String) (to_green : String) (lanes : String → LaneRec) :
    String → LaneRec :=
  let lanes1 := ids.foldl (fun acc l =>
    Function.update acc l
      { acc l with state := if l = to_green then Phase.Yellow else Phase.Red }) lanes
  Function.update lanes1 to_green { lanes1 to_green with state := Phase.Green }

/-- `_apply_yellow`: rewrite the lane states via `yellowLanes`, record the
chosen lane as `current_green`, and stamp `green_started_at` with the
current clock. -/
def applyYellow (st : Ctrl) (to_green : String) (now : ℚ) : Ctrl :=
  { st with
      lanes := yellowLanes st.lane_ids to_green st.lanes
      current_green := some to_green
      green_started_at := some now }

/-- Python `int()` applied to a float: truncation toward zero. -/
def pyInt (q : ℚ) : Int :=
  if 0 ≤ q then ⌊q⌋ else -⌊-q⌋

/-- `_simulate_flow`: clear `min(normal, int(clearance_rate * green_time))`
vehicles from the chosen lane and add the drawn arrivals (the source draws
`random.randint(0, 3)`) to every other registered lane. -/
def simulateFlow (cfg : Config) (ids : List String) (data : String → LaneData)
    (chosen : String) (green_time : ℚ) (arrivals : String → Int) : String → LaneData :=
  let cleared := min (data chosen).normal (pyInt (cfg.clearance_rate * green_time))
  fun l =>
    if l = chosen then { data l with normal := (data l).normal - cleared }
    else if l ∈ ids then { data l with normal := (data l).normal + arrivals l }
    else data l

/-- Step 7 of `update`: persist the snapshot's `normal` counts back into the
stored lane state. -/
def persistNormals (ids : List String) (data : String → LaneData)
    (lanes : String → LaneRec) : String → LaneRec :=
  ids.foldl (fun acc l => Function.update acc l { acc l with normal := (data l).normal }) lanes

/-- The enriched output dict built at the end of `update`: per lane its state
and wait, and `green_time` added on the entry of `self.current_green`. -/
def buildReport (st : Ctrl) : List ReportEntry :=
  st.lane_ids.map (fun l =>
    { lane_id := l, state := (st.lanes l).state, wait := (st.lanes l).wait,
      green_time := if st.current_green = some l then some st.current_green_time else none })

/-- Steps 3-8 of `update`, once a (truthy) lane has been chosen: update the
wait counters, recompute the green time from the snapshot, run the yellow →
green transition, simulate flow, persist the resulting normals, and build
the report. -/
def runCycle (st : Ctrl) (data : String → LaneData) (chosen : String) (now : ℚ)
    (arrivals : String → Int) : Ctrl × List ReportEntry :=
  let st2 := { st with lanes := updateWaits st.lane_ids chosen st.lanes }
  let gt := calcGreenTime st2.cfg (data chosen)
  let st3 := { st2 with current_green_time := gt }
  let st4 := applyYellow st3 chosen now
  let data2 := simulateFlow st4.cfg st4.lane_ids data chosen gt arrivals
  let st5 := { st4 with lanes := persistNormals st4.lane_ids data2 st4.lanes }
  (st5, buildReport st5)

/-- Lane choice of steps 1-2 of `update`: the emergency choice when truthy;
otherwise, when a truthy current green lane with a truthy start instant has
not exhausted its allotted green time, that lane; otherwise the fairness
choice.  Both `if not chosen:` and `if self.current_green and
self.green_started_at:` are Python truthiness tests, so `None` and the
empty lane id (resp. the float `0.0`) take the falsy branch. -/
def chooseLane (st : Ctrl) (data : String → LaneData) (now : ℚ) : Option String :=
  let e := chooseEmergencyLane st data
  if truthyS e then e
  else
    match st.current_green, st.green_started_at with
    | some g, some t =>
      if g ≠ "" ∧ t ≠ 0 then
        if now - t < st.current_green_time then some g
        else chooseNormalLane st.cfg st.lane_ids data
      else chooseNormalLane st.cfg st.lane_ids data
    | _, _ => chooseNormalLane st.cfg st.lane_ids data

/-- The condition under which `update` retains the current green lane when
no emergency choice is in force: a truthy current green lane, a truthy
green start instant, and elapsed time strictly below the allotted green
time. -/
def retentionCond (st : Ctrl) (now : ℚ) : Bool :=
  match st.current_green, st.green_started_at with
  | some g, some t =>
    decide (g ≠ "") && decide (t ≠ 0) && decide (now - t < st.current_green_time)
  | _, _ => false

/-- Does the readings' lane-id set coincide with the registered set?  When
it does not, the source raises `KeyError` (line 152 for an unregistered
reading; lines 78/185 for a registered lane missing from the readings). -/
def readingsMatch (st : Ctrl) (readings : List Reading) : Bool :=
  readings.all (fun r => st.lane_ids.contains r.lane_id)
    && st.lane_ids.all (fun l => (lookupReading readings l).isSome)

/-- The write `self.last_emergency_lane = chosen` at the end of
`_choose_emergency_lane`: performed whenever that selector returns a lane,
even when `update` then discards the choice as falsy. -/
def updMemory (st : Ctrl) (data : String → LaneData) : Ctrl :=
  match chooseEmergencyLane st data with
  | some c => { st with last_emergency_lane := some c }
  | none => st

/-- `DynamicTrafficController.update`.  The `readingsMatch` guard models the
`KeyError`s raised on a lane-set mismatch; `chooseLane = none` models the
`ValueError` of `max()` in `_choose_normal_lane` on an empty lane set. -/
def update (st : Ctrl) (readings : List Reading) (now : ℚ) (arrivals : String → Int) :
    Option (Ctrl × List ReportEntry) :=
  if readingsMatch st readings then
    match chooseLane st (dataOf st readings) now with
    | some chosen =>
      some (runCycle (updMemory st (dataOf st readings)) (dataOf st readings) chosen now arrivals)
    | none => none
  else none

/-- Well-formedness of a controller state, maintained by construction and by
every `update`: lane ids are pairwise distinct (they are the keys of the
`self.lanes` dict) and the current green lane, when present, is registered. -/
def CtrlWF (st : Ctrl) : Prop :=
  st.lane_ids.Nodup ∧ ∀ g, st.current_green = some g → g ∈ st.lane_ids

/-! ### Concrete fixtures used by the closed instance theorems -/

/-- A constant zero arrival draw (`random.randint(0, 3)` can produce 0). -/
def arZero : String → Int := fun _ => 0

/-- Fresh two-lane controller with the API configuration. -/
def wCtrl : Ctrl := mkController ["A", "B"] apiConfig

/-- Readings with ordinary traffic on lane `A` only. -/
def wRead : List Reading :=
  [{ lane_id := "A", normal := 2, emergency := 0 },
   { lane_id := "B", normal := 0, emergency := 0 }]

/-- Readings with emergencies: lane `A` carries the strict maximum. -/
def wReadEm : List Reading :=
  [{ lane_id := "A", normal := 0, emergency := 3 },
   { lane_id := "B", normal := 1, emergency := 1 }]

/-- All-zero readings for the two-lane fixtures. -/
def wReadZ : List Reading :=
  [{ lane_id := "A", normal := 0, emergency := 0 },
   { lane_id := "B", normal := 0, emergency := 0 }]

/-- Readings with heavy ordinary traffic on lane `B` only. -/
def wReadB : List Reading :=
  [{ lane_id := "A", normal := 0, emergency := 0 },
   { lane_id := "B", normal := 4, emergency := 0 }]

/-- Fallback pair for `Option.getD` on `update` results. -/
def dPair : Ctrl × List ReportEntry := (mkController [] apiConfig, [])

/-- The API configuration with `starvation_limit` lowered to 1, so a
starved lane arises after a single cycle. -/
def starveCfg : Config := { apiConfig with starvation_limit := 1 }

/-- A controller mid-run: lane `A` currently green since instant 100 with
10 allotted seconds, lane `B` aged one cycle. -/
def wGreen : Ctrl :=
  { cfg := apiConfig, lane_ids := ["A", "B"],
    lanes := fun l =>
      if l = "A" then { normal := 2, emergency := 0, wait := 0, state := Phase.Green }
      else { normal := 0, emergency := 0, wait := 1, state := Phase.Red },
    current_green := some "A", green_started_at := some 100,
    current_green_time := 10, last_emergency_lane := none }

/-- A controller whose lane `B` has aged up to the starvation limit of
`apiConfig` while every queue is empty. -/
def wStarved : Ctrl :=
  { cfg := apiConfig, lane_ids := ["A", "B"],
    lanes := fun l =>
      if l = "B" then { normal := 0, emergency := 0, wait := 8, state := Phase.Red }
      else { normal := 0, emergency := 0, wait := 0, state := Phase.Red },
    current_green := none, green_started_at := none,
    current_green_time := 3, last_emergency_lane := none }

end TrafficModels

namespace TrafficModels.ModelApi

/-- One element of the `detections` list handled by `aggregate_counts` in
`src/model_api.py` (a `DetectedBox` dict; every field is optional). -/
structure Detection where
  lane_id : Option String
  pred_label : Option String
  embedding : Option (List ℚ)
  crop_base64 : Option String
deriving DecidableEq, Repr

/-- Does `needle` occur as a contiguous block at the head of `hay`? -/
def seqStarts : List Char → List Char → Bool
  | [], _ => true
  | _ :: _, [] => false
  | a :: as, b :: bs => a = b && seqStarts as bs

/-- Does `needle` occur as a contiguous block anywhere in `hay`?
(Python's `x in lab` on strings.) -/
def seqContains (needle : List Char) : List Char → Bool
  | [] => needle.isEmpty
  | b :: bs => seqStarts needle (b :: bs) || seqContains needle bs

/-- `any(x in lab for x in ("ambulance","emergency","police","fire"))` on the
lower-cased label. -/
def isEmergencyLabel (s : String) : Bool :=
  ["ambulance", "emergency", "police", "fire"].any
    (fun k => seqContains k.toList s.toLower.toList)

/-- Label resolution for one detection, following the `if/elif` chain of
`aggregate_counts`: a truthy `pred_label` wins; else a present (even empty)
`embedding` is classified, any exception giving `None`; else a truthy
`crop_base64` is decoded, embedded and classified, any exception giving
`None`; else `None`.  The two injected functions stand for
`classify_from_embedding` and the decode+embed+classify composite, with
`none` as their exception path. -/
def resolveLabel (classifyEmb : List ℚ → Option String)
    (classifyCrop : String → Option String) (d : Detection) : Option String :=
  match d.pred_label with
  | some s =>
    if s ≠ "" then some s
    else
      match d.embedding with
      | some emb => classifyEmb emb
      | none =>
        match d.crop_base64 with
        | some crop => if crop ≠ "" then classifyCrop crop else none
        | none => none
  | none =>
    match d.embedding with
    | some emb => classifyEmb emb
    | none =>
      match d.crop_base64 with
      | some crop => if crop ≠ "" then classifyCrop crop else none
      | none => none

/-- `if label:` followed by the emergency-keyword test: a detection is
tallied as an emergency vehicle exactly when its resolved label is a
truthy (nonempty) string containing an emergency keyword; every other
detection — including every classification failure — is tallied as normal. -/
def treatsAsEmergency (classifyEmb : List ℚ → Option String)
    (classifyCrop : String → Option String) (d : Detection) : Bool :=
  match resolveLabel classifyEmb classifyCrop d with
  | some s => s ≠ "" && isEmergencyLabel s
  | none => false

/-- Add one vehicle (emergency or normal) to a lane's entry of the counts
dict, inserting the entry `{"normal": 0, "emergency": 0}` first when the
lane is new; entries are kept in insertion order like a Python dict. -/
def addCount : List (String × Int × Int) → String → Bool → List (String × Int × Int)
  | [], lane, isEm => [(lane, (if isEm then 0 else 1), (if isEm then 1 else 0))]
  | (l, n, e) :: rest, lane, isEm =>
    if l = lane then (l, n + (if isEm then 0 else 1), e + (if isEm then 1 else 0)) :: rest
    else (l, n, e) :: addCount rest lane isEm

/-- `aggregate_counts`: one pass over the detections; a detection whose
`lane_id` is `None` is skipped, every other detection contributes exactly
one vehicle to its lane, classified by `treatsAsEmergency`. -/
def aggregate_counts (classifyEmb : List ℚ → Option String)
    (classifyCrop : String → Option String) (ds : List Detection) :
    List (String × Int × Int) :=
  ds.foldl (fun acc d =>
    match d.lane_id with
    | none => acc
    | some lane => addCount acc lane (treatsAsEmergency classifyEmb classifyCrop d)) []

/-- The `(normal, emergency)` pair recorded for a lane, `(0, 0)` when the
lane has no entry (entry keys are unique, so the first match is the entry). -/
def getCounts : List (String × Int × Int) → String → Int × Int
  | [], _ => (0, 0)
  | (l, n, e) :: rest, lane => if l = lane then (n, e) else getCounts rest lane


namespace TrafficModels

/-! ### Pointwise descriptions of the per-lane loops -/

theorem foldl_update_pointwise {β : Type} (g : β → String → β) :
    ∀ (ids : List String) (init : String → β), ids.Nodup →
      ∀ x, (ids.foldl (fun acc l => Function.update acc l (g (acc l) l)) init) x
          = if x ∈ ids then g (init x) x else init x := by
  intro ids
  induction ids with
  | nil => intro init _ x; simp
  | cons a ids ih =>
    intro init hnd x
    have hna : a ∉ ids := (List.nodup_cons.mp hnd).1
    have hnd' : ids.Nodup := (List.nodup_cons.mp hnd).2
    simp only [List.foldl_cons]
    rw [ih _ hnd' x]
    by_cases hx : x ∈ ids
    · have hxa : x ≠ a := fun h => hna (h ▸ hx)
      simp [hx, hxa, Function.update_noteq hxa, List.mem_cons]
    · by_cases hxa : x = a
      · subst hxa
        simp [hx, Function.update_same, List.mem_cons]
      · simp [hx, hxa, Function.update_noteq hxa, List.mem_cons]

theorem updateWaits_apply (ids : List String) (chosen : String) (lanes : String → LaneRec)
    (hnd : ids.Nodup) (x : String) :
    updateWaits ids chosen lanes x =
      if x ∈ ids then
        (if x = chosen then { lanes x with wait := 0 }
         else { lanes x with wait := (lanes x).wait + 1 })
      else lanes x := by
  unfold updateWaits
  exact foldl_update_pointwise
    (fun r l => if l = chosen then { r with wait := 0 } else { r with wait := r.wait + 1 })
    ids lanes hnd x

theorem yellowLanes_apply (ids : List String) (c : String) (lanes : String → LaneRec)
    (hnd : ids.Nodup) (x : String) :
    yellowLanes ids c lanes x =
      if x = c then { lanes x with state := Phase.Green }
      else if x ∈ ids then { lanes x with state := Phase.Red }
      else lanes x := by
  unfold yellowLanes
  simp only
  have hfold := foldl_update_pointwise
    (fun r l => { r with state := if l = c then Phase.Yellow else Phase.Red })
    ids lanes hnd
  by_cases hxc : x = c
  · rw [hxc, Function.update_same, hfold c]
    by_cases hc : c ∈ ids <;> simp [hc]
  · rw [Function.update_noteq hxc, hfold x]
    by_cases hx : x ∈ ids <;> simp [hx, hxc]

theorem persistNormals_apply (ids : List String) (data : String → LaneData)
    (lanes : String → LaneRec) (hnd : ids.Nodup) (x : String) :
    persistNormals ids data lanes x =
      if x ∈ ids then { lanes x with normal := (data x).normal } else lanes x := by
  unfold persistNormals
  exact foldl_update_pointwise (fun r l => { r with normal := (data l).normal }) ids lanes hnd x

/-! ### Structure of one decision cycle -/

theorem runCycle_fst_cfg (st : Ctrl) (data : String → LaneData) (c : String) (now : ℚ)
    (ar : String → Int) : (runCycle st data c now ar).1.cfg = st.cfg := rfl

theorem runCycle_fst_lane_ids (st : Ctrl) (data : String → LaneData) (c : String) (now : ℚ)
    (ar : String → Int) : (runCycle st data c now ar).1.lane_ids = st.lane_ids := rfl

theorem runCycle_fst_current_green (st : Ctrl) (data : String → LaneData) (c : String)
    (now : ℚ) (ar : String → Int) : (runCycle st data c now ar).1.current_green = some c := rfl

theorem runCycle_fst_green_started (st : Ctrl) (data : String → LaneData) (c : String)
    (now : ℚ) (ar : String → Int) :
    (runCycle st data c now ar).1.green_started_at = some now := rfl

theorem runCycle_fst_green_time (st : Ctrl) (data : String → LaneData) (c : String)
    (now : ℚ) (ar : String → Int) :
    (runCycle st data c now ar).1.current_green_time = calcGreenTime st.cfg (data c) := rfl

theorem runCycle_fst_last_emergency (st : Ctrl) (data : String → LaneData) (c : String)
    (now : ℚ) (ar : String → Int) :
    (runCycle st data c now ar).1.last_emergency_lane = st.last_emergency_lane := rfl

theorem runCycle_snd (st : Ctrl) (data : String → LaneData) (c : String) (now : ℚ)
    (ar : String → Int) :
    (runCycle st data c now ar).2 = buildReport (runCycle st data c now ar).1 := rfl

theorem runCycle_lanes_mem (st : Ctrl) (data : String → LaneData) (c : String) (now : ℚ)
    (ar : String → Int) (hnd : st.lane_ids.Nodup) (x : String) (hx : x ∈ st.lane_ids) :
    (runCycle st data c now ar).1.lanes x =
      { normal := (simulateFlow st.cfg st.lane_ids data c (calcGreenTime st.cfg (data c)) ar
          x).normal,
        emergency := (st.lanes x).emergency,
        wait := if x = c then 0 else (st.lanes x).wait + 1,
        state := if x = c then Phase.Green else Phase.Red } := by
  have hL : (runCycle st data c now ar).1.lanes
      = persistNormals st.lane_ids
          (simulateFlow st.cfg st.lane_ids data c (calcGreenTime st.cfg (data c)) ar)
          (yellowLanes st.lane_ids c (updateWaits st.lane_ids c st.lanes)) := rfl
  rw [hL, persistNormals_apply _ _ _ hnd x,
    yellowLanes_apply _ c _ hnd x, updateWaits_apply _ _ _ hnd x]
  by_cases hxc : x = c
  · have hc : c ∈ st.lane_ids := hxc ▸ hx
    simp [hxc, hc]
  · simp [hx, hxc]

theorem runCycle_lanes_not_mem (st : Ctrl) (data : String → LaneData) (c : String) (now : ℚ)
    (ar : String → Int) (hnd : st.lane_ids.Nodup) (x : String) (hx : x ∉ st.lane_ids)
    (hxc : x ≠ c) :
    (runCycle st data c now ar).1.lanes x = st.lanes x := by
  have hL : (runCycle st data c now ar).1.lanes
      = persistNormals st.lane_ids
          (simulateFlow st.cfg st.lane_ids data c (calcGreenTime st.cfg (data c)) ar)
          (yellowLanes st.lane_ids c (updateWaits st.lane_ids c st.lanes)) := rfl
  rw [hL, persistNormals_apply _ _ _ hnd x,
    yellowLanes_apply _ c _ hnd x, updateWaits_apply _ _ _ hnd x]
  simp [hx, hxc]

/-! ### Elimination form of `update` -/

theorem update_eq_some_iff {st : Ctrl} {rd : List Reading} {now : ℚ} {ar : String → Int}
    {p : Ctrl × List ReportEntry} :
    update st rd now ar = some p ↔
      readingsMatch st rd = true ∧
        ∃ c, chooseLane st (dataOf st rd) now = some c ∧
          p = runCycle (updMemory st (dataOf st rd)) (dataOf st rd) c now ar := by
  unfold update
  cases hm : readingsMatch st rd with
  | false => simp
  | true =>
    rw [if_pos rfl]
    cases hc : chooseLane st (dataOf st rd) now with
    | none => simp
    | some c =>
      constructor
      · intro h
        exact ⟨rfl, c, rfl, (Option.some.inj h).symm⟩
      · rintro ⟨-, c', hcc, hp⟩
        have hcc' := Option.some.inj hcc
        subst hcc'
        rw [hp]

/-! ### The fairness selector returns the first maximal-score lane -/

theorem bestLane_spec (score : String → ℚ) (xs : List String) : ∀ b : String,
    score b ≤ score (bestLane score b xs) ∧
    (∀ l ∈ xs, score l ≤ score (bestLane score b xs)) ∧
    (bestLane score b xs = b ∨
      ∃ pre post, xs = pre ++ bestLane score b xs :: post ∧
        score b < score (bestLane score b xs) ∧
        ∀ l ∈ pre, score l < score (bestLane score b xs)) := by
  induction xs with
  | nil => intro b; exact ⟨le_refl _, by simp, Or.inl rfl⟩
  | cons a xs ih =>
    intro b
    by_cases h : score b < score a
    · have hb : bestLane score b (a :: xs) = bestLane score a xs := by
        unfold bestLane; simp only [List.foldl_cons, if_pos h]
      rw [hb]
      obtain ⟨h1, h2, h3⟩ := ih a
      set r := bestLane score a xs with hr
      refine ⟨le_trans (le_of_lt h) h1, ?_, ?_⟩
      · intro l hl
        rcases List.mem_cons.mp hl with rfl | hl
        · exact h1
        · exact h2 l hl
      · rcases h3 with heq | ⟨pre, post, hxs, hlt, hpre⟩
        · refine Or.inr ⟨[], xs, by simp [heq], ?_, by simp⟩
          rw [heq]; exact h
        · refine Or.inr ⟨a :: pre, post, ?_, lt_trans h hlt, ?_⟩
          · rw [List.cons_append, hxs]
          · intro l hl
            rcases List.mem_cons.mp hl with rfl | hl
            · exact hlt
            · exact hpre l hl
    · have hb : bestLane score b (a :: xs) = bestLane score b xs := by
        unfold bestLane; simp only [List.foldl_cons, if_neg h]
      rw [hb]
      obtain ⟨h1, h2, h3⟩ := ih b
      set r := bestLane score b xs with hr
      refine ⟨h1, ?_, ?_⟩
      · intro l hl
        rcases List.mem_cons.mp hl with rfl | hl
        · exact le_trans (not_lt.mp h) h1
        · exact h2 l hl
      · rcases h3 with heq | ⟨pre, post, hxs, hlt, hpre⟩
        · exact Or.inl heq
        · refine Or.inr ⟨a :: pre, post, ?_, hlt, ?_⟩
          · rw [List.cons_append, hxs]
          · intro l hl
            rcases List.mem_cons.mp hl with rfl | hl
            · exact lt_of_le_of_lt (not_lt.mp h) hlt
            · exact hpre l hl

theorem chooseNormalLane_spec (cfg : Config) (ids : List String) (data : String → LaneData)
    (r : String) (h : chooseNormalLane cfg ids data = some r) :
    r ∈ ids ∧ (∀ l ∈ ids, laneScore cfg (data l) ≤ laneScore cfg (data r)) ∧
      ∃ pre post, ids = pre ++ r :: post ∧
        ∀ l ∈ pre, laneScore cfg (data l) < laneScore cfg (data r) := by
  match ids with
  | [] => exact absurd h (by simp [chooseNormalLane])
  | x :: xs =>
    have hrb : bestLane (fun l => laneScore cfg (data l)) x xs = r := Option.some.inj h
    obtain ⟨h1, h2, h3⟩ := bestLane_spec (fun l => laneScore cfg (data l)) xs x
    rw [hrb] at h1 h2 h3
    refine ⟨?_, ?_, ?_⟩
    · rcases h3 with heq | ⟨pre, post, hxs, -, -⟩
      · rw [heq]; exact List.mem_cons_self _ _
      · refine List.mem_cons_of_mem _ ?_
        rw [hxs]
        exact List.mem_append_right pre (List.mem_cons_self _ _)
    · intro l hl
      rcases List.mem_cons.mp hl with rfl | hl
      · exact h1
      · exact h2 l hl
    · rcases h3 with heq | ⟨pre, post, hxs, hlt, hpre⟩
      · exact ⟨[], xs, by rw [heq, List.nil_append], by simp⟩
      · refine ⟨x :: pre, post, ?_, ?_⟩
        · rw [List.cons_append, hxs]
        · intro l hl
          rcases List.mem_cons.mp hl with rfl | hl
          · exact hlt
          · exact hpre l hl

theorem chooseNormalLane_isSome (cfg : Config) (ids : List String) (data : String → LaneData)
    (hne : ids ≠ []) : ∃ r, chooseNormalLane cfg ids data = some r := by
  match ids with
  | [] => exact absurd rfl hne
  | x :: xs => exact ⟨_, rfl⟩

theorem chooseNormalLane_dominant (cfg : Config) (ids : List String) (data : String → LaneData)
    (w : String) (hw : w ∈ ids)
    (hdom : ∀ l ∈ ids, l ≠ w → laneScore cfg (data l) < laneScore cfg (data w)) :
    chooseNormalLane cfg ids data = some w := by
  obtain ⟨r, hr⟩ := chooseNormalLane_isSome cfg ids data (List.ne_nil_of_mem hw)
  obtain ⟨hrm, hmax, -⟩ := chooseNormalLane_spec cfg ids data r hr
  by_cases hrw : r = w
  · rw [hr, hrw]
  · exact absurd (lt_of_le_of_lt (hmax w hw) (hdom r hrm hrw)) (lt_irrefl _)

/-! ### Integer fold-max facts, for the emergency maximum -/

theorem le_foldl_max (xs : List Int) : ∀ i : Int, i ≤ xs.foldl max i := by
  induction xs with
  | nil => intro i; exact le_refl i
  | cons a xs ih => intro i; exact le_trans (le_max_left i a) (ih (max i a))

theorem mem_le_foldl_max (xs : List Int) : ∀ (i x : Int), x ∈ xs → x ≤ xs.foldl max i := by
  induction xs with
  | nil => intro i x hx; cases hx
  | cons a xs ih =>
    intro i x hx
    rcases List.mem_cons.mp hx with rfl | hx
    · exact le_trans (le_max_right i x) (le_foldl_max xs (max i x))
    · exact ih (max i a) x hx

theorem foldl_max_attained (xs : List Int) :
    ∀ i : Int, xs.foldl max i = i ∨ xs.foldl max i ∈ xs := by
  induction xs with
  | nil => intro i; exact Or.inl rfl
  | cons a xs ih =>
    intro i
    rcases ih (max i a) with h | h
    · rcases max_choice i a with hm | hm
      · exact Or.inl (by rw [List.foldl_cons, h, hm])
      · exact Or.inr (by rw [List.foldl_cons, h, hm]; exact List.mem_cons_self a xs)
    · exact Or.inr (List.mem_cons_of_mem a h)

/-! ### First-hit characterization of `find?`, and the circular scan -/

theorem find?_index_spec (p : String → Bool) :
    ∀ (l : List String) (c : String), l.find? p = some c →
      ∃ i, i < l.length ∧ l.getD i "" = c ∧ p c = true ∧
        ∀ j, j < i → p (l.getD j "") = false := by
  intro l
  induction l with
  | nil => intro c h; simp at h
  | cons a l ih =>
    intro c h
    cases hpa : p a with
    | true =>
      rw [List.find?_cons_of_pos _ hpa] at h
      have hca : a = c := Option.some.inj h
      subst hca
      exact ⟨0, Nat.succ_pos _, rfl, hpa, fun j hj => absurd hj (Nat.not_lt_zero j)⟩
    | false =>
      rw [List.find?_cons_of_neg _ (by simp [hpa])] at h
      obtain ⟨i, hi, hg, hc, hmin⟩ := ih c h
      refine ⟨i + 1, Nat.succ_lt_succ hi, ?_, hc, ?_⟩
      · rw [List.getD_cons_succ]; exact hg
      · intro j hj
        match j with
        | 0 => rw [List.getD_cons_zero]; exact hpa
        | j + 1 => rw [List.getD_cons_succ]; exact hmin j (Nat.lt_of_succ_lt_succ hj)

theorem headD_mem (l : List String) (h : l ≠ []) : l.headD "" ∈ l := by
  match l with
  | [] => exact absurd rfl h
  | a :: l => exact List.mem_cons_self a l

theorem getD_mem_of_lt (l : List String) (m : Nat) (hm : m < l.length) :
    l.getD m "" ∈ l := by
  rw [List.getD_eq_get l "" hm]
  exact List.get_mem l m hm

theorem getD_inj_of_nodup (l : List String) (hnd : l.Nodup) (m k : Nat)
    (hm : m < l.length) (hk : k < l.length) (h : l.getD m "" = l.getD k "") : m = k := by
  rw [List.getD_eq_get l "" hm, List.getD_eq_get l "" hk] at h
  have h2 := (List.Nodup.get_inj_iff hnd).mp h
  exact Fin.val_eq_of_eq h2

theorem scanList_length (ids : List String) (start : Nat) :
    (scanList ids start).length = ids.length := by
  simp [scanList]

theorem scanList_getD (ids : List String) (start j : Nat) (hj : j < ids.length) :
    (scanList ids start).getD j "" = ids.getD ((start + j) % ids.length) "" := by
  unfold scanList
  have hj' : j < ((List.range ids.length).map
      (fun i => ids.getD ((start + i) % ids.length) "")).length := by simpa using hj
  rw [List.getD_eq_getElem _ _ hj']
  simp

theorem mem_scanList_of_getD (ids : List String) (start j : Nat) (hj : j < ids.length) :
    ids.getD ((start + j) % ids.length) "" ∈ scanList ids start := by
  rw [← scanList_getD ids start j hj]
  exact getD_mem_of_lt _ j (by rw [scanList_length]; exact hj)

theorem scanList_subset (ids : List String) (start : Nat) (hne : ids ≠ []) :
    ∀ x ∈ scanList ids start, x ∈ ids := by
  intro x hx
  unfold scanList at hx
  obtain ⟨i, -, rfl⟩ := List.mem_map.mp hx
  exact getD_mem_of_lt ids _ (Nat.mod_lt _ (List.length_pos.mpr hne))

theorem scan_index_eq (n k start : Nat) (hn : 0 < n) (hk : k < n) :
    (start + (k + n - start % n) % n) % n = k := by
  have hs : start % n < n := Nat.mod_lt _ hn
  have hle : start % n ≤ start := Nat.mod_le _ _
  have h1 : (k + n - start % n) % n ≡ k + n - start % n [MOD n] := Nat.mod_modEq _ _
  have h2 : start + (k + n - start % n) % n ≡ start + (k + n - start % n) [MOD n] :=
    h1.add_left start
  have h3 : start + (k + n - start % n) = start - start % n + (k + n) := by omega
  have h4 : n ∣ start - start % n := by
    have h5 := Nat.mod_add_div start n
    exact ⟨start / n, by omega⟩
  have h6 : start - start % n + (k + n) ≡ 0 + (k + n) [MOD n] :=
    (Nat.modEq_zero_iff_dvd.mpr h4).add_right _
  have h7 : start + (k + n - start % n) % n ≡ k + n [MOD n] := by
    rw [h3] at h2
    simpa using h2.trans h6
  have h8 : (start + (k + n - start % n) % n) % n = (k + n) % n := h7
  rw [h8, Nat.add_mod_right]
  exact Nat.mod_eq_of_lt hk

theorem scan_pos_inj {n start i j : Nat} (hi : i < n) (hj : j < n)
    (h : (start + i) % n = (start + j) % n) : i = j := by
  have h' : start + i ≡ start + j [MOD n] := h
  have h2 : i ≡ j [MOD n] := Nat.ModEq.add_left_cancel' start h'
  have h3 : i % n = j % n := h2
  rwa [Nat.mod_eq_of_lt hi, Nat.mod_eq_of_lt hj] at h3

theorem mem_scanList_index (ids : List String) (start : Nat) (l : String) (hl : l ∈ ids) :
    ∃ i, i < ids.length ∧ ids.getD ((start + i) % ids.length) "" = l := by
  obtain ⟨⟨k, hk⟩, hget⟩ := List.mem_iff_get.mp hl
  have hn : 0 < ids.length := lt_of_le_of_lt (Nat.zero_le k) hk
  refine ⟨(k + ids.length - start % ids.length) % ids.length, Nat.mod_lt _ hn, ?_⟩
  rw [scan_index_eq ids.length k start hn hk, List.getD_eq_get ids "" hk]
  exact hget

/-! ### The emergency selector: maximality and round-robin tie-break -/

theorem chooseEmergencyLane_eq_pick (st : Ctrl) (data : String → LaneData) (e : String)
    (es : List String)
    (hfil : st.lane_ids.filter (fun l => 0 < (data l).emergency) = e :: es) :
    chooseEmergencyLane st data = emergencyPick st data e es := by
  unfold chooseEmergencyLane
  rw [hfil]

theorem chooseEmergencyLane_eq_none (st : Ctrl) (data : String → LaneData)
    (h : ∀ l ∈ st.lane_ids, (data l).emergency ≤ 0) :
    chooseEmergencyLane st data = none := by
  unfold chooseEmergencyLane
  have hfil : st.lane_ids.filter (fun l => 0 < (data l).emergency) = [] := by
    rw [List.filter_eq_nil_iff]
    intro a ha
    simpa using not_lt.mpr (h a ha)
  rw [hfil]

theorem tiedLanes_ne_nil (data : String → LaneData) (e : String) (es : List String) :
    tiedLanes data e es ≠ [] := by
  have hatt : ∃ m ∈ e :: es, (data m).emergency = maxEmergency data e es := by
    rcases foldl_max_attained (es.map (fun l => (data l).emergency))
        ((data e).emergency) with h | h
    · exact ⟨e, List.mem_cons_self _ _, h.symm⟩
    · obtain ⟨m, hm, hfm⟩ := List.mem_map.mp h
      exact ⟨m, List.mem_cons_of_mem _ hm, hfm⟩
  obtain ⟨m, hm, hfm⟩ := hatt
  intro hemp
  have hmem : m ∈ tiedLanes data e es := List.mem_filter.mpr ⟨hm, by simpa using hfm⟩
  rw [hemp] at hmem
  cases hmem

theorem maxEmergency_ge (data : String → LaneData) (e : String) (es : List String) :
    ∀ l ∈ e :: es, (data l).emergency ≤ maxEmergency data e es := by
  intro l hl
  rcases List.mem_cons.mp hl with rfl | hl
  · exact le_foldl_max _ _
  · exact mem_le_foldl_max _ _ _ (List.mem_map_of_mem _ hl)

theorem chooseEmergencyLane_spec (st : Ctrl) (data : String → LaneData)
    (hnd : st.lane_ids.Nodup)
    (hpos : ∃ l ∈ st.lane_ids, 0 < (data l).emergency) :
    ∃ c, chooseEmergencyLane st data = some c ∧ c ∈ st.lane_ids ∧
      0 < (data c).emergency ∧
      (∀ l ∈ st.lane_ids, (data l).emergency ≤ (data c).emergency) ∧
      ∃ i, i < st.lane_ids.length ∧
        st.lane_ids.getD ((scanStart st + i) % st.lane_ids.length) "" = c ∧
        ∀ j, j < i →
          (data (st.lane_ids.getD ((scanStart st + j) % st.lane_ids.length) "")).emergency
            < (data c).emergency := by
  obtain ⟨w, hw, hwpos⟩ := hpos
  have hwfil : w ∈ st.lane_ids.filter (fun l => 0 < (data l).emergency) :=
    List.mem_filter.mpr ⟨hw, by simpa using hwpos⟩
  cases hfil : st.lane_ids.filter (fun l => 0 < (data l).emergency) with
  | nil => rw [hfil] at hwfil; cases hwfil
  | cons e es =>
    have heq := chooseEmergencyLane_eq_pick st data e es hfil
    have hsub : ∀ l ∈ e :: es, l ∈ st.lane_ids ∧ 0 < (data l).emergency := by
      intro l hl
      rw [← hfil] at hl
      exact ⟨(List.mem_filter.mp hl).1, by simpa using (List.mem_filter.mp hl).2⟩
    have hne : st.lane_ids ≠ [] := List.ne_nil_of_mem hw
    have hn : 0 < st.lane_ids.length := List.length_pos.mpr hne
    have hMpos : 0 < maxEmergency data e es :=
      lt_of_lt_of_le (hsub e (List.mem_cons_self _ _)).2
        (maxEmergency_ge data e es e (List.mem_cons_self _ _))
    have hMall : ∀ l ∈ st.lane_ids, (data l).emergency ≤ maxEmergency data e es := by
      intro l hl
      by_cases hp : 0 < (data l).emergency
      · refine maxEmergency_ge data e es l ?_
        rw [← hfil]
        exact List.mem_filter.mpr ⟨hl, by simpa using hp⟩
      · exact le_trans (not_lt.mp hp) (le_of_lt hMpos)
    have htied_iff : ∀ x, x ∈ tiedLanes data e es ↔
        (x ∈ st.lane_ids ∧ (data x).emergency = maxEmergency data e es) := by
      intro x
      constructor
      · intro hx
        obtain ⟨hx1, hx2⟩ := List.mem_filter.mp hx
        exact ⟨(hsub x hx1).1, by simpa using hx2⟩
      · rintro ⟨hx1, hx2⟩
        refine List.mem_filter.mpr ⟨?_, by simpa using hx2⟩
        rw [← hfil]
        refine List.mem_filter.mpr ⟨hx1, ?_⟩
        simpa using hx2 ▸ hMpos
    -- the lane finally chosen, in both branches, is a tied lane with a
    -- minimal circular-scan position
    have hmain : ∀ c, emergencyPick st data e es = some c →
        c ∈ tiedLanes data e es ∧
        ∃ i, i < st.lane_ids.length ∧
          st.lane_ids.getD ((scanStart st + i) % st.lane_ids.length) "" = c ∧
          ∀ j, j < i →
            st.lane_ids.getD ((scanStart st + j) % st.lane_ids.length) ""
              ∉ tiedLanes data e es := by
      intro c hc
      unfold emergencyPick at hc
      by_cases hlen : (tiedLanes data e es).length = 1
      · rw [if_pos hlen] at hc
        obtain ⟨t, ht⟩ := List.length_eq_one.mp hlen
        have hct : c = t := by
          rw [ht] at hc
          simpa using (Option.some.inj hc).symm
        subst hct
        have hcm : c ∈ tiedLanes data e es := by rw [ht]; exact List.mem_cons_self _ _
        have hcids : c ∈ st.lane_ids := ((htied_iff c).mp hcm).1
        obtain ⟨i0, hi0, hgi0⟩ := mem_scanList_index st.lane_ids (scanStart st) c hcids
        refine ⟨hcm, i0, hi0, hgi0, ?_⟩
        intro j hj hmem
        have hjlt : j < st.lane_ids.length := lt_trans hj hi0
        have hv : st.lane_ids.getD ((scanStart st + j) % st.lane_ids.length) "" = c := by
          have := hmem
          rw [ht] at this
          simpa using this
        have hpos_eq : (scanStart st + j) % st.lane_ids.length
            = (scanStart st + i0) % st.lane_ids.length := by
          refine getD_inj_of_nodup st.lane_ids hnd _ _ (Nat.mod_lt _ hn) (Nat.mod_lt _ hn) ?_
          rw [hv, hgi0]
        exact absurd (scan_pos_inj hjlt hi0 hpos_eq) (Nat.ne_of_lt hj)
      · rw [if_neg hlen] at hc
        cases hfind : (scanList st.lane_ids (scanStart st)).find?
            (fun l => decide (l ∈ tiedLanes data e es)) with
        | some c' =>
          rw [hfind] at hc
          have hcc : c' = c := Option.some.inj hc
          subst hcc
          obtain ⟨i, hi, hg, hp, hmin⟩ := find?_index_spec _ _ _ hfind
          rw [scanList_length] at hi
          have hcm : c' ∈ tiedLanes data e es := of_decide_eq_true hp
          refine ⟨hcm, i, hi, ?_, ?_⟩
          · rw [← scanList_getD st.lane_ids (scanStart st) i hi]; exact hg
          · intro j hj hmem
            have hjlt : j < st.lane_ids.length := lt_trans hj hi
            have hpj := hmin j hj
            rw [scanList_getD st.lane_ids (scanStart st) j hjlt] at hpj
            exact of_decide_eq_false hpj hmem
        | none =>
          exfalso
          obtain ⟨m, hm⟩ := List.exists_mem_of_ne_nil _ (tiedLanes_ne_nil data e es)
          have hmids : m ∈ st.lane_ids := ((htied_iff m).mp hm).1
          obtain ⟨i, hi, hgi⟩ := mem_scanList_index st.lane_ids (scanStart st) m hmids
          have hmem : m ∈ scanList st.lane_ids (scanStart st) := by
            rw [← hgi]
            exact mem_scanList_of_getD st.lane_ids (scanStart st) i hi
          have hnp := List.find?_eq_none.mp hfind m hmem
          exact hnp (by simpa using hm)
    -- package the final statement
    obtain ⟨c, hcpick⟩ : ∃ c, emergencyPick st data e es = some c := by
      unfold emergencyPick
      by_cases hlen : (tiedLanes data e es).length = 1
      · exact ⟨_, by rw [if_pos hlen]⟩
      · rw [if_neg hlen]
        cases hfind : (scanList st.lane_ids (scanStart st)).find?
            (fun l => decide (l ∈ tiedLanes data e es)) with
        | some c' => exact ⟨c', rfl⟩
        | none => exact ⟨_, rfl⟩
    obtain ⟨hcm, i, hi, hgi, hminscan⟩ := hmain c hcpick
    obtain ⟨hcids, hcM⟩ := (htied_iff c).mp hcm
    refine ⟨c, heq.trans hcpick, hcids, ?_, ?_, i, hi, hgi, ?_⟩
    · rw [hcM]; exact hMpos
    · intro l hl; rw [hcM]; exact hMall l hl
    · intro j hj
      have hjlt : j < st.lane_ids.length := lt_trans hj hi
      have hvm : st.lane_ids.getD ((scanStart st + j) % st.lane_ids.length) ""
          ∈ st.lane_ids := getD_mem_of_lt _ _ (Nat.mod_lt _ hn)
      have hnotin := hminscan j hj
      have hne' : (data (st.lane_ids.getD ((scanStart st + j) % st.lane_ids.length)
          "")).emergency ≠ maxEmergency data e es := by
        intro hcontra
        exact hnotin ((htied_iff _).mpr ⟨hvm, hcontra⟩)
      rw [hcM]
      exact lt_of_le_of_ne (hMall _ hvm) hne'

theorem chooseEmergencyLane_mem (st : Ctrl) (data : String → LaneData) (c : String)
    (hnd : st.lane_ids.Nodup) (h : chooseEmergencyLane st data = some c) :
    c ∈ st.lane_ids := by
  cases hfil : st.lane_ids.filter (fun l => 0 < (data l).emergency) with
  | nil =>
    rw [chooseEmergencyLane, hfil] at h
    cases h
  | cons e es =>
    have hpos : ∃ l ∈ st.lane_ids, 0 < (data l).emergency := by
      have he : e ∈ st.lane_ids.filter (fun l => 0 < (data l).emergency) := by
        rw [hfil]; exact List.mem_cons_self _ _
      exact ⟨e, (List.mem_filter.mp he).1, by simpa using (List.mem_filter.mp he).2⟩
    obtain ⟨c', hc', hmem, -⟩ := chooseEmergencyLane_spec st data hnd hpos
    rw [h] at hc'
    rw [Option.some.inj hc']
    exact hmem

/-! ### Shapes of the overall lane choice -/

theorem chooseLane_fallback (st : Ctrl) (data : String → LaneData) (now : ℚ) :
    (match st.current_green, st.green_started_at with
      | some g, some t =>
        if g ≠ "" ∧ t ≠ 0 then
          if now - t < st.current_green_time then some g
          else chooseNormalLane st.cfg st.lane_ids data
        else chooseNormalLane st.cfg st.lane_ids data
      | _, _ => chooseNormalLane st.cfg st.lane_ids data)
    = if retentionCond st now then st.current_green
      else chooseNormalLane st.cfg st.lane_ids data := by
  unfold retentionCond
  cases hcg : st.current_green with
  | none => simp
  | some g =>
    cases hgs : st.green_started_at with
    | none => simp
    | some t =>
      by_cases h1 : g ≠ "" <;> by_cases h2 : t ≠ 0 <;>
        by_cases h3 : now - t < st.current_green_time <;>
        simp [h1, h2, h3]

theorem chooseLane_emergency (st : Ctrl) (data : String → LaneData) (now : ℚ) (c : String)
    (h : chooseEmergencyLane st data = some c) (hc : c ≠ "") :
    chooseLane st data now = some c := by
  unfold chooseLane
  rw [h]
  simp [truthyS, hc]

theorem chooseLane_no_emergency (st : Ctrl) (data : String → LaneData) (now : ℚ)
    (h : chooseEmergencyLane st data = none) :
    chooseLane st data now =
      if retentionCond st now then st.current_green
      else chooseNormalLane st.cfg st.lane_ids data := by
  unfold chooseLane
  rw [h]
  rw [if_neg (by simp [truthyS])]
  exact chooseLane_fallback st data now

theorem chooseLane_emergency_falsy (st : Ctrl) (data : String → LaneData) (now : ℚ)
    (h : chooseEmergencyLane st data = some "") :
    chooseLane st data now =
      if retentionCond st now then st.current_green
      else chooseNormalLane st.cfg st.lane_ids data := by
  unfold chooseLane
  rw [h]
  rw [if_neg (by simp [truthyS])]
  exact chooseLane_fallback st data now

theorem chooseLane_mem (st : Ctrl) (data : String → LaneData) (now : ℚ) (c : String)
    (hwf : CtrlWF st) (h : chooseLane st data now = some c) : c ∈ st.lane_ids := by
  have hfall : chooseLane st data now =
      (if retentionCond st now then st.current_green
       else chooseNormalLane st.cfg st.lane_ids data) →
      c ∈ st.lane_ids := by
    intro heq
    rw [heq] at h
    by_cases hrc : retentionCond st now
    · rw [if_pos hrc] at h
      exact hwf.2 c h
    · rw [if_neg hrc] at h
      exact (chooseNormalLane_spec st.cfg st.lane_ids data c h).1
  cases he : chooseEmergencyLane st data with
  | none => exact hfall (chooseLane_no_emergency st data now he)
  | some ce =>
    by_cases hce : ce = ""
    · subst hce
      exact hfall (chooseLane_emergency_falsy st data now he)
    · have := chooseLane_emergency st data now ce he hce
      rw [this] at h
      rw [← Option.some.inj h]
      exact chooseEmergencyLane_mem st data ce hwf.1 he

theorem updMemory_cfg (st : Ctrl) (data : String → LaneData) :
    (updMemory st data).cfg = st.cfg := by
  unfold updMemory
  cases chooseEmergencyLane st data <;> rfl

theorem updMemory_lane_ids (st : Ctrl) (data : String → LaneData) :
    (updMemory st data).lane_ids = st.lane_ids := by
  unfold updMemory
  cases chooseEmergencyLane st data <;> rfl

theorem updMemory_lanes (st : Ctrl) (data : String → LaneData) :
    (updMemory st data).lanes = st.lanes := by
  unfold updMemory
  cases chooseEmergencyLane st data <;> rfl

/-- Everything a successful `update` does to the controller state, phrased
through the chosen lane. -/
theorem update_characterization {st : Ctrl} {rd : List Reading} {now : ℚ}
    {ar : String → Int} {st' : Ctrl} {rep : List ReportEntry}
    (hnd : st.lane_ids.Nodup) (h : update st rd now ar = some (st', rep)) :
    ∃ c, chooseLane st (dataOf st rd) now = some c ∧
      st'.current_green = some c ∧
      st'.lane_ids = st.lane_ids ∧
      st'.green_started_at = some now ∧
      st'.current_green_time = calcGreenTime st.cfg (dataOf st rd c) ∧
      (∀ x ∈ st.lane_ids,
        (st'.lanes x).wait = if x = c then 0 else (st.lanes x).wait + 1) ∧
      (∀ x ∈ st.lane_ids,
        (st'.lanes x).state = if x = c then Phase.Green else Phase.Red) ∧
      (∀ x, x ∉ st.lane_ids → x ≠ c → st'.lanes x = st.lanes x) ∧
      rep = buildReport st' := by
  obtain ⟨-, c, hc, hp⟩ := update_eq_some_iff.mp h
  have hst' : st' = (runCycle (updMemory st (dataOf st rd)) (dataOf st rd) c now ar).1 :=
    congrArg Prod.fst hp
  have hrep : rep = (runCycle (updMemory st (dataOf st rd)) (dataOf st rd) c now ar).2 :=
    congrArg Prod.snd hp
  have hndM : (updMemory st (dataOf st rd)).lane_ids.Nodup := by
    rw [updMemory_lane_ids]; exact hnd
  refine ⟨c, hc, ?_, ?_, ?_, ?_, ?_, ?_, ?_, ?_⟩
  · rw [hst']; exact runCycle_fst_current_green _ _ _ _ _
  · rw [hst', runCycle_fst_lane_ids, updMemory_lane_ids]
  · rw [hst']; exact runCycle_fst_green_started _ _ _ _ _
  · rw [hst', runCycle_fst_green_time, updMemory_cfg]
  · intro x hx
    rw [hst', runCycle_lanes_mem _ _ _ _ _ hndM x (by rw [updMemory_lane_ids]; exact hx)]
    rw [updMemory_lanes]
  · intro x hx
    rw [hst', runCycle_lanes_mem _ _ _ _ _ hndM x (by rw [updMemory_lane_ids]; exact hx)]
  · intro x hx hxc
    rw [hst', runCycle_lanes_not_mem _ _ _ _ _ hndM x
      (by rw [updMemory_lane_ids]; exact hx) hxc, updMemory_lanes]
  · rw [hrep, runCycle_snd, ← hst']

/-! ### Claim theorems -/

/-- C1: after every successful call to `update` on a well-formed controller,
exactly one registered lane has phase Green — both in the stored lane state
and in the returned report, which contains exactly one Green entry — every
other registered lane has phase Red, and no report entry carries the
Yellow label (the transient Yellow of `_apply_yellow` is overwritten to
Green within the same call). -/
theorem C1_exactly_one_green (st : Ctrl) (rd : List Reading) (now : ℚ) (ar : String → Int)
    (st' : Ctrl) (rep : List ReportEntry) (hwf : CtrlWF st)
    (h : update st rd now ar = some (st', rep)) :
    ∃ c, st'.current_green = some c ∧ c ∈ st.lane_ids ∧
      (∀ l ∈ st.lane_ids, (st'.lanes l).state = if l = c then Phase.Green else Phase.Red) ∧
      rep.countP (fun e2 => decide (e2.state = Phase.Green)) = 1 ∧
      (∀ e2 ∈ rep, e2.state ≠ Phase.Yellow) := by
  obtain ⟨c, hcl, hcg, hids, -, -, -, hstate, -, hrep⟩ := update_characterization hwf.1 h
  have hcm : c ∈ st.lane_ids := chooseLane_mem st _ now c hwf hcl
  refine ⟨c, hcg, hcm, hstate, ?_, ?_⟩
  · have h1 : rep.countP (fun e2 => decide (e2.state = Phase.Green))
        = st.lane_ids.countP (fun l => l == c) := by
      rw [hrep]
      unfold buildReport
      rw [hids, List.countP_map]
      refine List.countP_congr ?_
      intro l hl
      simp only [Function.comp_apply]
      rw [hstate l hl]
      by_cases hlc : l = c <;> simp [hlc]
    rw [h1]
    exact List.count_eq_one_of_mem hwf.1 hcm
  · intro e2 he2
    rw [hrep] at he2
    unfold buildReport at he2
    obtain ⟨l, hl, rfl⟩ := List.mem_map.mp he2
    rw [hids] at hl
    show (st'.lanes l).state ≠ Phase.Yellow
    rw [hstate l hl]
    by_cases hlc : l = c <;> simp [hlc]

/-- C2: every successful call to `update` on a well-formed controller sets
the chosen lane's wait counter to 0, increments every other registered
lane's wait counter by exactly 1 relative to its value before the call, and
changes no other wait counter. -/
theorem C2_wait_counters (st : Ctrl) (rd : List Reading) (now : ℚ) (ar : String → Int)
    (st' : Ctrl) (rep : List ReportEntry) (hwf : CtrlWF st)
    (h : update st rd now ar = some (st', rep)) :
    ∃ c, st'.current_green = some c ∧ c ∈ st.lane_ids ∧
      (st'.lanes c).wait = 0 ∧
      (∀ l ∈ st.lane_ids, l ≠ c → (st'.lanes l).wait = (st.lanes l).wait + 1) ∧
      (∀ l, l ∉ st.lane_ids → (st'.lanes l).wait = (st.lanes l).wait) := by
  obtain ⟨c, hcl, hcg, -, -, -, hwait, -, hout, -⟩ := update_characterization hwf.1 h
  have hcm : c ∈ st.lane_ids := chooseLane_mem st _ now c hwf hcl
  refine ⟨c, hcg, hcm, ?_, ?_, ?_⟩
  · rw [hwait c hcm]; simp
  · intro l hl hlc
    rw [hwait l hl]
    simp [hlc]
  · intro l hl
    have hlc : l ≠ c := fun hh => hl (hh ▸ hcm)
    rw [hout l hl hlc]

/-- C8: every successful call to `update` — the retention case included —
re-runs the phase transitioner and the green-time estimator: afterwards the
green-phase start instant equals the clock value passed to that call and
the allotted green duration is recomputed from that call's working
snapshot for the chosen lane; the next call's elapsed-time comparison
therefore measures from the most recent call. -/
theorem C8_restamp_each_call (st : Ctrl) (rd : List Reading) (now : ℚ) (ar : String → Int)
    (st' : Ctrl) (rep : List ReportEntry) (hnd : st.lane_ids.Nodup)
    (h : update st rd now ar = some (st', rep)) :
    ∃ c, st'.current_green = some c ∧ st'.green_started_at = some now ∧
      st'.current_green_time = calcGreenTime st.cfg (dataOf st rd c) := by
  obtain ⟨c, -, hcg, -, hgs, hgt, -⟩ := update_characterization hnd h
  exact ⟨c, hcg, hgs, hgt⟩

/-- C4: the green-time estimator is the stated pure function of the lane's
snapshot and the configuration —
`max(min_green, min(normal / clearance_rate + wait * 0.4 + emergency * 2.0,
max_green))` — and, whenever `min_green ≤ max_green`, its value lies in
`[min_green, max_green]` for all non-negative inputs. -/
theorem C4_green_time_bounds (cfg : Config) (d : LaneData)
    (hn : 0 ≤ d.normal) (he : 0 ≤ d.emergency) (hmm : cfg.min_green ≤ cfg.max_green) :
    calcGreenTime cfg d
      = max cfg.min_green
          (min ((d.normal : ℚ) / cfg.clearance_rate + (d.wait : ℚ) * 0.4
            + (d.emergency : ℚ) * 2.0) cfg.max_green) ∧
    cfg.min_green ≤ calcGreenTime cfg d ∧ calcGreenTime cfg d ≤ cfg.max_green := by
  unfold calcGreenTime
  exact ⟨rfl, le_max_left _ _, max_le hmm (min_le_right _ _)⟩

/-- C5: the fairness selector computes the stated score for every lane and
returns the lane with the maximal score, ties broken by
lane-registration order — the chosen lane's score is maximal and every
lane listed before it scores strictly less, independent of any hash order;
and on a fresh controller whose four lanes all read zero, the first
registered lane is chosen with green duration `min_green`. -/
theorem C5_fairness_scoring :
    (∀ (cfg : Config) (d : LaneData),
      laneScore cfg d = d.normal * (1 + (d.wait : ℚ) * cfg.wait_boost)
        + (if cfg.starvation_limit ≤ d.wait then 1000 else 0))
    ∧ (∀ (cfg : Config) (ids : List String) (data : String → LaneData) (r : String),
        chooseNormalLane cfg ids data = some r →
          r ∈ ids ∧ (∀ l ∈ ids, laneScore cfg (data l) ≤ laneScore cfg (data r)) ∧
          ∃ pre post, ids = pre ++ r :: post ∧
            ∀ l ∈ pre, laneScore cfg (data l) < laneScore cfg (data r))
    ∧ ((update (mkController (defaultLaneIds 4) apiConfig)
          ((defaultLaneIds 4).map (fun l => { lane_id := l, normal := 0, emergency := 0 }))
          100 (fun _ => 0)).map
        (fun p => (p.1.current_green, p.1.current_green_time))
        = some (some "Lane_1", apiConfig.min_green)) := by
  refine ⟨fun cfg d => rfl, fun cfg ids data r h => chooseNormalLane_spec cfg ids data r h, ?_⟩
  with_unfolding_all decide

/-- C6 (amended): a lane whose wait counter has reached `starvation_limit`
receives the fixed `+1000` score bonus, and is selected by the next
`update` in which no lane reports an emergency, the retention carve-out
does not apply, and its boosted score strictly exceeds every other
registered lane's score; the bonus is a strong bias rather than an
unconditional guarantee. -/
theorem C6_starvation_selected (st : Ctrl) (rd : List Reading) (now : ℚ) (ar : String → Int)
    (l : String) (hmatch : readingsMatch st rd = true) (hl : l ∈ st.lane_ids)
    (hstarv : st.cfg.starvation_limit ≤ (dataOf st rd l).wait)
    (hnoem : ∀ x ∈ st.lane_ids, (dataOf st rd x).emergency ≤ 0)
    (hnoret : retentionCond st now = false)
    (hdom : ∀ x ∈ st.lane_ids, x ≠ l →
        laneScore st.cfg (dataOf st rd x) < laneScore st.cfg (dataOf st rd l)) :
    ∃ st' rep, update st rd now ar = some (st', rep) ∧ st'.current_green = some l := by
  have hem : chooseEmergencyLane st (dataOf st rd) = none :=
    chooseEmergencyLane_eq_none st _ hnoem
  have hcl : chooseLane st (dataOf st rd) now = some l := by
    rw [chooseLane_no_emergency st _ now hem, if_neg (by simp [hnoret])]
    exact chooseNormalLane_dominant st.cfg st.lane_ids _ l hl hdom
  exact ⟨_, _, update_eq_some_iff.mpr ⟨hmatch, l, hcl, rfl⟩,
    runCycle_fst_current_green _ _ _ _ _⟩

/-- C7 (amended): when no lane reports an emergency and the currently-green
lane has a nonempty id, a nonzero recorded start instant, and an elapsed
time strictly below the allotted green duration, `update` retains that lane
as chosen for any readings whatsoever (the fairness selector plays no
role); and whenever no emergency is pending but the retention condition
fails, the chosen lane is exactly the fairness selector's choice. -/
theorem C7_retention_carveout (st : Ctrl) (rd : List Reading) (now : ℚ) (ar : String → Int) :
    (∀ (g : String) (t : ℚ),
      readingsMatch st rd = true →
      (∀ x ∈ st.lane_ids, (dataOf st rd x).emergency ≤ 0) →
      st.current_green = some g → g ≠ "" →
      st.green_started_at = some t → t ≠ 0 →
      now - t < st.current_green_time →
      ∃ st' rep, update st rd now ar = some (st', rep) ∧ st'.current_green = some g)
    ∧ ((∀ x ∈ st.lane_ids, (dataOf st rd x).emergency ≤ 0) →
       retentionCond st now = false →
       readingsMatch st rd = true →
       st.lane_ids ≠ [] →
       ∃ r, chooseNormalLane st.cfg st.lane_ids (dataOf st rd) = some r ∧
         ∃ st' rep, update st rd now ar = some (st', rep) ∧ st'.current_green = some r) := by
  constructor
  · intro g t hmatch hnoem hcg hgne hgs htne helapsed
    have hem : chooseEmergencyLane st (dataOf st rd) = none :=
      chooseEmergencyLane_eq_none st _ hnoem
    have hret : retentionCond st now = true := by
      unfold retentionCond
      rw [hcg, hgs]
      simp [hgne, htne, helapsed]
    have hcl : chooseLane st (dataOf st rd) now = some g := by
      rw [chooseLane_no_emergency st _ now hem, if_pos hret, hcg]
    exact ⟨_, _, update_eq_some_iff.mpr ⟨hmatch, g, hcl, rfl⟩,
      runCycle_fst_current_green _ _ _ _ _⟩
  · intro hnoem hnoret hmatch hne
    have hem : chooseEmergencyLane st (dataOf st rd) = none :=
      chooseEmergencyLane_eq_none st _ hnoem
    obtain ⟨r, hr⟩ := chooseNormalLane_isSome st.cfg st.lane_ids (dataOf st rd) hne
    have hcl : chooseLane st (dataOf st rd) now = some r := by
      rw [chooseLane_no_emergency st _ now hem, if_neg (by simp [hnoret])]
      exact hr
    exact ⟨r, hr, _, _, update_eq_some_iff.mpr ⟨hmatch, r, hcl, rfl⟩,
      runCycle_fst_current_green _ _ _ _ _⟩

/-- C3 (amended): on a well-formed controller none of whose lane ids is the
empty string, every call to `update` whose readings give some registered
lane a positive emergency count chooses a lane with the maximal emergency
count; that lane is the first tied lane met when scanning registration
order circularly from just past the remembered last emergency lane
(`scanStart` is 0 when there is no usable memory), and the memory is
updated to the chosen lane. -/
theorem C3_emergency_priority (st : Ctrl) (rd : List Reading) (now : ℚ) (ar : String → Int)
    (hnd : st.lane_ids.Nodup) (hno_empty : "" ∉ st.lane_ids)
    (hmatch : readingsMatch st rd = true)
    (hpos : ∃ l ∈ st.lane_ids, 0 < (dataOf st rd l).emergency) :
    ∃ c st' rep, update st rd now ar = some (st', rep) ∧
      st'.current_green = some c ∧ c ∈ st.lane_ids ∧
      0 < (dataOf st rd c).emergency ∧
      (∀ l ∈ st.lane_ids, (dataOf st rd l).emergency ≤ (dataOf st rd c).emergency) ∧
      (∃ i, i < st.lane_ids.length ∧
        st.lane_ids.getD ((scanStart st + i) % st.lane_ids.length) "" = c ∧
        ∀ j, j < i →
          (dataOf st rd (st.lane_ids.getD ((scanStart st + j) % st.lane_ids.length)
            "")).emergency < (dataOf st rd c).emergency) ∧
      st'.last_emergency_lane = some c := by
  obtain ⟨c, hce, hcm, hcpos, hcmax, hscan⟩ := chooseEmergencyLane_spec st _ hnd hpos
  have hcne : c ≠ "" := fun hh => hno_empty (hh ▸ hcm)
  have hcl := chooseLane_emergency st _ now c hce hcne
  refine ⟨c, _, _, update_eq_some_iff.mpr ⟨hmatch, c, hcl, rfl⟩,
    runCycle_fst_current_green _ _ _ _ _, hcm, hcpos, hcmax, hscan, ?_⟩
  show (runCycle (updMemory st (dataOf st rd)) (dataOf st rd) c now
    ar).1.last_emergency_lane = some c
  rw [runCycle_fst_last_emergency]
  unfold updMemory
  rw [hce]

/-- C9 (amended): calling `update` with an empty lane set is a failure, not
defined behavior: the fairness selector's `max` over an empty score dict
raises, so no report — empty or otherwise — is returned. -/
theorem C9_empty_lane_set_fails (st : Ctrl) (rd : List Reading) (now : ℚ) (ar : String → Int)
    (hempty : st.lane_ids = []) (hcg : st.current_green = none) :
    update st rd now ar = none := by
  unfold update
  cases hm : readingsMatch st rd with
  | false => rw [if_neg (by simp)]
  | true =>
    rw [if_pos rfl]
    have hem : chooseEmergencyLane st (dataOf st rd) = none := by
      unfold chooseEmergencyLane
      rw [hempty]
      rfl
    have hrc : retentionCond st now = false := by
      unfold retentionCond
      rw [hcg]
    have hcl : chooseLane st (dataOf st rd) now = none := by
      rw [chooseLane_no_emergency st _ now hem, if_neg (by simp [hrc])]
      unfold chooseNormalLane
      rw [hempty]
    rw [hcl]

end TrafficModels

namespace TrafficModels.ModelApi

theorem getCounts_addCount (counts : List (String × Int × Int)) (lane : String)
    (isEm : Bool) (q : String) :
    getCounts (addCount counts lane isEm) q =
      if q = lane then
        ((getCounts counts q).1 + (if isEm then 0 else 1),
         (getCounts counts q).2 + (if isEm then 1 else 0))
      else getCounts counts q := by
  induction counts with
  | nil =>
    by_cases h : q = lane
    · rw [if_pos h, h]
      simp [addCount, getCounts]
    · rw [if_neg h]
      have h' : lane ≠ q := fun hh => h hh.symm
      simp [addCount, getCounts, h']
  | cons p rest ih =>
    obtain ⟨l, n, e⟩ := p
    simp only [addCount]
    by_cases hll : l = lane
    · rw [if_pos hll]
      by_cases h' : l = q
      · have hq : q = lane := h'.symm.trans hll
        simp [getCounts, h', hq]
      · have hq : q ≠ lane := fun hh => h' (hll.trans hh.symm)
        simp [getCounts, h', hq]
    · rw [if_neg hll]
      by_cases h' : l = q
      · have hq : q ≠ lane := fun hh => hll (h'.trans hh)
        simp [getCounts, h', hq]
      · simp [getCounts, h', ih]

theorem aggregate_loop (classifyEmb : List ℚ → Option String)
    (classifyCrop : String → Option String) (lane : String) :
    ∀ (ds : List Detection) (acc : List (String × Int × Int)),
      getCounts (ds.foldl (fun acc d =>
        match d.lane_id with
        | none => acc
        | some l => addCount acc l (treatsAsEmergency classifyEmb classifyCrop d)) acc) lane
      = ((getCounts acc lane).1
           + ((ds.filter (fun d => d.lane_id = some lane
                ∧ treatsAsEmergency classifyEmb classifyCrop d = false)).length : Int),
         (getCounts acc lane).2
           + ((ds.filter (fun d => d.lane_id = some lane
                ∧ treatsAsEmergency classifyEmb classifyCrop d = true)).length : Int)) := by
  intro ds
  induction ds with
  | nil => intro acc; simp
  | cons d ds ih =>
    intro acc
    simp only [List.foldl_cons]
    rw [ih]
    cases hld : d.lane_id with
    | none =>
      simp [hld]
    | some l =>
      simp only [hld]
      rw [getCounts_addCount]
      by_cases hl : lane = l
      · cases hfl : treatsAsEmergency classifyEmb classifyCrop d with
        | false =>
          rw [if_pos hl]
          simp only [hfl, if_neg (Bool.false_ne_true), if_pos rfl]
          simp [List.filter_cons, hld, hl.symm, hfl]
          omega
        | true =>
          rw [if_pos hl]
          simp only [hfl, if_pos rfl]
          simp [List.filter_cons, hld, hl.symm, hfl]
          omega
      · have hl' : ¬ (some l = some lane) := fun hh => hl (Option.some.inj hh).symm
        rw [if_neg hl]
        simp [List.filter_cons, hld, hl']

theorem length_filter_lane_split (classifyEmb : List ℚ → Option String)
    (classifyCrop : String → Option String) (lane : String) :
    ∀ ds : List Detection,
      (ds.filter (fun d => d.lane_id = some lane
          ∧ treatsAsEmergency classifyEmb classifyCrop d = false)).length
        + (ds.filter (fun d => d.lane_id = some lane
            ∧ treatsAsEmergency classifyEmb classifyCrop d = true)).length
        = (ds.filter (fun d => d.lane_id = some lane)).length := by
  intro ds
  induction ds with
  | nil => rfl
  | cons d ds ih =>
    simp only [List.filter_cons]
    by_cases hld : d.lane_id = some lane
    · cases hfl : treatsAsEmergency classifyEmb classifyCrop d with
      | false =>
        rw [if_pos (by simp [hld, hfl]), if_neg (by simp [hfl]), if_pos (by simp [hld])]
        simp only [List.length_cons]
        omega
      | true =>
        rw [if_neg (by simp [hfl]), if_pos (by simp [hld, hfl]), if_pos (by simp [hld])]
        simp only [List.length_cons]
        omega
    · rw [if_neg (by simp [hld]), if_neg (by simp [hld]), if_neg (by simp [hld])]
      exact ih

/-- C10: for every list of detections, the aggregation is total — each
detection carrying a lane id contributes exactly one vehicle to its lane's
counts, so the per-lane normal and emergency counts add up to the number of
that lane's detections — the emergency count tallies exactly the
detections whose resolved label is a truthy emergency keyword, every other
detection (classification failure and absent label source included) lands
in the normal count, and a detection whose label resolution fails is never
tallied as emergency.  Exceptions in the classifier calls are the `none`
results of the injected classifier functions, so no classification failure
can abort the aggregation or drop a detection. -/
theorem C10_aggregation_lenient (classifyEmb : List ℚ → Option String)
    (classifyCrop : String → Option String) (ds : List Detection) (lane : String) :
    (getCounts (aggregate_counts classifyEmb classifyCrop ds) lane).1
        + (getCounts (aggregate_counts classifyEmb classifyCrop ds) lane).2
        = ((ds.filter (fun d => d.lane_id = some lane)).length : Int)
    ∧ (getCounts (aggregate_counts classifyEmb classifyCrop ds) lane).2
        = ((ds.filter (fun d => d.lane_id = some lane
            ∧ treatsAsEmergency classifyEmb classifyCrop d = true)).length : Int)
    ∧ (getCounts (aggregate_counts classifyEmb classifyCrop ds) lane).1
        = ((ds.filter (fun d => d.lane_id = some lane
            ∧ treatsAsEmergency classifyEmb classifyCrop d = false)).length : Int)
    ∧ (∀ d : Detection, treatsAsEmergency classifyEmb classifyCrop d
        = (resolveLabel classifyEmb classifyCrop d).elim false
            (fun s => s ≠ "" && isEmergencyLabel s)) := by
  have hloop := aggregate_loop classifyEmb classifyCrop lane ds []
  have h1 : (getCounts (aggregate_counts classifyEmb classifyCrop ds) lane).1
      = ((ds.filter (fun d => d.lane_id = some lane
          ∧ treatsAsEmergency classifyEmb classifyCrop d = false)).length : Int) := by
    unfold aggregate_counts
    rw [hloop]
    simp [getCounts]
  have h2 : (getCounts (aggregate_counts classifyEmb classifyCrop ds) lane).2
      = ((ds.filter (fun d => d.lane_id = some lane
          ∧ treatsAsEmergency classifyEmb classifyCrop d = true)).length : Int) := by
    unfold aggregate_counts
    rw [hloop]
    simp [getCounts]
  refine ⟨?_, h2, h1, ?_⟩
  · rw [h1, h2, ← length_filter_lane_split classifyEmb classifyCrop lane ds]
    push_cast
    ring
  · intro d
    cases hres : resolveLabel classifyEmb classifyCrop d <;>
      simp [treatsAsEmergency, hres]

end TrafficModels.ModelApi

namespace TrafficModels

/-! ### Closed counterexamples and witnesses -/

theorem wCtrl_wf : CtrlWF wCtrl :=
  ⟨by decide, fun g h => Option.noConfusion h⟩

/-- C3 counterexample: with registered lanes `["", "B"]` — ids the hosting
API accepts verbatim — readings give lane `""` the strictly maximal
emergency count 5, yet `update` chooses lane `"B"` (emergency 1) and
leaves the memory at `""`: the truthiness test `if not chosen:` discards
the emergency selector's choice `""`, so the chosen lane is not among the
lanes with the maximum emergency value. -/
theorem C3_counterexample :
    ((update (mkController ["", "B"] apiConfig)
        [{ lane_id := "", normal := 0, emergency := 5 },
         { lane_id := "B", normal := 3, emergency := 1 }] 100 arZero).map
      (fun p => (p.1.current_green, p.1.last_emergency_lane))
      = some (some "B", some ""))
    ∧ (dataOf (mkController ["", "B"] apiConfig)
        [{ lane_id := "", normal := 0, emergency := 5 },
         { lane_id := "B", normal := 3, emergency := 1 }] "").emergency = 5
    ∧ (dataOf (mkController ["", "B"] apiConfig)
        [{ lane_id := "", normal := 0, emergency := 5 },
         { lane_id := "B", normal := 3, emergency := 1 }] "B").emergency = 1
    ∧ "" ∈ (mkController ["", "B"] apiConfig).lane_ids
    ∧ ¬ (5 : Int) ≤ 1 := by
  with_unfolding_all decide

/-- C6 counterexample: with `starvation_limit = 1`, after one cycle lane
`Lane_2` has waited 1 cycle (the limit); the next cycle carries no
emergency and the previous green has expired (elapsed 100 ≥ allotted 12),
yet `Lane_1` is chosen again because its score 2500 exceeds the starved
lane's 1000 bonus — the bonus is not a hard fairness ceiling. -/
theorem C6_counterexample :
    starveCfg.starvation_limit = 1
    ∧ ((update (mkController ["Lane_1", "Lane_2"] starveCfg)
        [{ lane_id := "Lane_1", normal := 2500, emergency := 0 },
         { lane_id := "Lane_2", normal := 0, emergency := 0 }] 100 arZero).map
        (fun p => (p.1.current_green, p.1.current_green_time, (p.1.lanes "Lane_2").wait))
        = some (some "Lane_1", 12, 1))
    ∧ ¬ ((200 : ℚ) - 100 < 12)
    ∧ (((update (mkController ["Lane_1", "Lane_2"] starveCfg)
        [{ lane_id := "Lane_1", normal := 2500, emergency := 0 },
         { lane_id := "Lane_2", normal := 0, emergency := 0 }] 100 arZero).bind
        (fun p => update p.1
          [{ lane_id := "Lane_1", normal := 2500, emergency := 0 },
           { lane_id := "Lane_2", normal := 0, emergency := 0 }] 200 arZero)).map
        (fun p => p.1.current_green) = some (some "Lane_1")) := by
  with_unfolding_all decide

/-- C7 counterexample: with lanes `["", "B"]`, the first call makes `""`
the current green lane (start 100, allotted 3); the second call arrives at
101 with no emergency and elapsed 1 < 3, yet the green lane is not
retained — lane `"B"` is chosen, because `if self.current_green and ...:`
treats the lane id `""` as falsy and invokes the fairness selector. -/
theorem C7_counterexample :
    ((update (mkController ["", "B"] apiConfig)
        [{ lane_id := "", normal := 0, emergency := 0 },
         { lane_id := "B", normal := 0, emergency := 0 }] 100 arZero).map
      (fun p => (p.1.current_green, p.1.green_started_at, p.1.current_green_time))
      = some (some "", some 100, 3))
    ∧ ((101 : ℚ) - 100 < 3)
    ∧ (((update (mkController ["", "B"] apiConfig)
        [{ lane_id := "", normal := 0, emergency := 0 },
         { lane_id := "B", normal := 0, emergency := 0 }] 100 arZero).bind
        (fun p => update p.1
          [{ lane_id := "", normal := 0, emergency := 0 },
           { lane_id := "B", normal := 3, emergency := 0 }] 101 arZero)).map
        (fun p => p.1.current_green) = some (some "B")) := by
  with_unfolding_all decide

/-- C9 counterexample: `update` on a controller with an empty lane set
fails (`max()` over the empty score dict raises `ValueError`, modelled as
`none`) instead of returning an empty report. -/
theorem C9_counterexample :
    update (mkController [] apiConfig) [] 100 arZero = none := by
  with_unfolding_all rfl

/-- Witness for C1 at a concrete call: the report of
`update wCtrl wRead 100` holds exactly one Green entry, and the stored
green lane is `"A"`. -/
theorem C1_witness :
    ((update wCtrl wRead 100 arZero).map
      (fun p => p.2.countP (fun e2 => decide (e2.state = Phase.Green))) = some 1)
    ∧ ((update wCtrl wRead 100 arZero).map (fun p => p.1.current_green)
        = some (some "A")) := by
  have hup : update wCtrl wRead 100 arZero
      = some ((update wCtrl wRead 100 arZero).getD dPair) := by
    with_unfolding_all rfl
  obtain ⟨c, hcg, hcm, hstate, hcount, hyellow⟩ :=
    C1_exactly_one_green wCtrl wRead 100 arZero
      ((update wCtrl wRead 100 arZero).getD dPair).1
      ((update wCtrl wRead 100 arZero).getD dPair).2 wCtrl_wf hup
  constructor
  · rw [hup]
    simp only [Option.map_some']
    exact congrArg some hcount
  · have hA : ((update wCtrl wRead 100 arZero).getD dPair).1.current_green = some "A" := by
      with_unfolding_all decide
    rw [hup]
    simp only [Option.map_some']
    rw [hcg, ← hA, hcg]

/-- Witness for C2 at the same call: the chosen lane `"A"` has wait 0 and
lane `"B"`'s wait rose from 0 to 1. -/
theorem C2_witness :
    (update wCtrl wRead 100 arZero).map
      (fun p => ((p.1.lanes "A").wait, (p.1.lanes "B").wait)) = some (0, 1) := by
  have hup : update wCtrl wRead 100 arZero
      = some ((update wCtrl wRead 100 arZero).getD dPair) := by
    with_unfolding_all rfl
  obtain ⟨c, hcg, hcm, hw0, hwinc, -⟩ :=
    C2_wait_counters wCtrl wRead 100 arZero
      ((update wCtrl wRead 100 arZero).getD dPair).1
      ((update wCtrl wRead 100 arZero).getD dPair).2 wCtrl_wf hup
  have hA : ((update wCtrl wRead 100 arZero).getD dPair).1.current_green = some "A" := by
    with_unfolding_all decide
  rw [hcg] at hA
  have hc : c = "A" := Option.some.inj hA
  subst hc
  rw [hup]
  simp only [Option.map_some']
  rw [hw0, hwinc "B" (by decide) (by decide)]
  rfl

/-- Witness for C3 (amended) at a concrete emergency call: `"A"` (emergency
3, the maximum) is chosen and remembered. -/
theorem C3_witness :
    ((update wCtrl wReadEm 100 arZero).map
      (fun p => (p.1.current_green, p.1.last_emergency_lane)) = some (some "A", some "A"))
    ∧ (dataOf wCtrl wReadEm "B").emergency ≤ (dataOf wCtrl wReadEm "A").emergency := by
  obtain ⟨c, st', rep, hup, hcg, hcm, hcpos, hcmax, -, hlast⟩ :=
    C3_emergency_priority wCtrl wReadEm 100 arZero (by decide) (by decide)
      (by with_unfolding_all decide)
      ⟨"A", by decide, by with_unfolding_all decide⟩
  have hcomp : (update wCtrl wReadEm 100 arZero).map (fun p => p.1.current_green)
      = some (some "A") := by
    with_unfolding_all decide
  rw [hup] at hcomp
  simp only [Option.map_some'] at hcomp
  rw [hcg] at hcomp
  have hc : c = "A" := Option.some.inj (Option.some.inj hcomp)
  subst hc
  refine ⟨?_, hcmax "B" (by decide)⟩
  rw [hup]
  simp only [Option.map_some']
  rw [hcg, hlast]

/-- Witness for C4 at a concrete snapshot: 6 ordinary vehicles, 1 emergency
vehicle, wait 2 give `6 / 2.5 + 2 * 0.4 + 1 * 2.0 = 5.2`, inside
`[3, 12]`. -/
theorem C4_witness :
    (0 : Int) ≤ 6 ∧ apiConfig.min_green ≤ apiConfig.max_green
    ∧ apiConfig.min_green ≤ calcGreenTime apiConfig { normal := 6, emergency := 1, wait := 2 }
    ∧ calcGreenTime apiConfig { normal := 6, emergency := 1, wait := 2 } ≤ apiConfig.max_green
    ∧ calcGreenTime apiConfig { normal := 6, emergency := 1, wait := 2 } = 5.2 := by
  obtain ⟨-, hlo, hhi⟩ :=
    C4_green_time_bounds apiConfig { normal := 6, emergency := 1, wait := 2 }
      (by decide) (by decide) (by with_unfolding_all decide)
  exact ⟨by decide, by with_unfolding_all decide, hlo, hhi, by with_unfolding_all decide⟩

/-- Witness for C5's selector part at a concrete score dict: lane `"A"`
(score 2) is returned and dominates lane `"B"` (score 0). -/
theorem C5_witness :
    (("A" : String) ∈ (["A", "B"] : List String))
    ∧ laneScore apiConfig (dataOf wCtrl wRead "B")
        ≤ laneScore apiConfig (dataOf wCtrl wRead "A") := by
  obtain ⟨hmem, hmax, -⟩ :=
    C5_fairness_scoring.2.1 apiConfig ["A", "B"] (dataOf wCtrl wRead) "A"
      (by with_unfolding_all decide)
  exact ⟨hmem, hmax "B" (by decide)⟩

/-- Witness for C6 (amended) at a concrete starved state: lane `"B"` has
waited 8 cycles (the limit), no emergency and no live green are present,
its boosted score 1000 dominates, and it is selected. -/
theorem C6_witness :
    (update wStarved wReadZ 100 arZero).map (fun p => p.1.current_green)
      = some (some "B") := by
  obtain ⟨st', rep, hup, hcg⟩ :=
    C6_starvation_selected wStarved wReadZ 100 arZero "B"
      (by with_unfolding_all decide) (by decide)
      (by with_unfolding_all decide) (by with_unfolding_all decide)
      (by with_unfolding_all decide) (by with_unfolding_all decide)
  rw [hup]
  simp only [Option.map_some']
  exact congrArg some hcg

/-- Witness for C7 (amended): lane `"A"` (green since 100, allotted 10) is
retained at instant 105 even though lane `"B"` has all the traffic, and at
instant 200 — green expired — the fairness selector's choice `"B"` is
chosen. -/
theorem C7_witness :
    ((update wGreen wReadB 105 arZero).map (fun p => p.1.current_green) = some (some "A"))
    ∧ ((update wGreen wReadB 200 arZero).map (fun p => p.1.current_green)
        = some (some "B")) := by
  constructor
  · obtain ⟨st', rep, hup, hcg⟩ :=
      (C7_retention_carveout wGreen wReadB 105 arZero).1 "A" 100
        (by with_unfolding_all decide) (by with_unfolding_all decide)
        rfl (by decide) rfl (by with_unfolding_all decide)
        (by with_unfolding_all decide)
    rw [hup]
    simp only [Option.map_some']
    exact congrArg some hcg
  · obtain ⟨r, hr, st', rep, hup, hcg⟩ :=
      (C7_retention_carveout wGreen wReadB 200 arZero).2
        (by with_unfolding_all decide) (by with_unfolding_all decide)
        (by with_unfolding_all decide) (by decide)
    have hrB : chooseNormalLane wGreen.cfg wGreen.lane_ids (dataOf wGreen wReadB)
        = some "B" := by
      with_unfolding_all decide
    rw [hr] at hrB
    have hb : r = "B" := Option.some.inj hrB
    subst hb
    rw [hup]
    simp only [Option.map_some']
    exact congrArg some hcg

/-- Witness for C8 at a retention call: lane `"A"` is retained at instant
105, and the call still re-stamps the green start to 105 and recomputes the
allotted duration (3, from `A`'s empty queue) — it does not keep the old
start 100 or the old duration 10. -/
theorem C8_witness :
    (update wGreen wReadB 105 arZero).map
      (fun p => (p.1.current_green, p.1.green_started_at, p.1.current_green_time))
      = some (some "A", some 105, 3) := by
  have hup : update wGreen wReadB 105 arZero
      = some ((update wGreen wReadB 105 arZero).getD dPair) := by
    with_unfolding_all rfl
  obtain ⟨c, hcg, hgs, hgt⟩ :=
    C8_restamp_each_call wGreen wReadB 105 arZero
      ((update wGreen wReadB 105 arZero).getD dPair).1
      ((update wGreen wReadB 105 arZero).getD dPair).2 (by decide) hup
  have hA : ((update wGreen wReadB 105 arZero).getD dPair).1.current_green = some "A" := by
    with_unfolding_all decide
  rw [hcg] at hA
  have hc : c = "A" := Option.some.inj hA
  subst hc
  rw [hup]
  simp only [Option.map_some']
  rw [hcg, hgs, hgt]
  with_unfolding_all decide

/-- Witness for C9 (amended): the empty-lane-set failure at a second
configuration and clock instant. -/
theorem C9_witness :
    update (mkController [] defaultConfig) [] 50 arZero = none :=
  C9_empty_lane_set_fails (mkController [] defaultConfig) [] 50 arZero rfl rfl

end TrafficModels
